import Mathlib

/-!
# ModelX — verification of the state-aggregation and client-reconciliation core

Shallow embedding of the ModelX repository's state-aggregation engine and
client-side reconciliation protocol:

* the client data hook `frontend/app/hooks/use-modelx-data.ts` (the version
  marked "FIXED: State now MERGES instead of REPLACES", whose WebSocket
  `onmessage` merge, REST fallback `fetchData`, `fetchInitialData` and
  loading-timeout handler are embedded below), and the later "COMPLETE"
  version whose reconnect backoff and ping/pong handler are embedded;
* the LangGraph reducer `reduce_domain_insights` and the branch wrapper
  `wrap_subagent_with_adapter` from the repository's fix notes
  (`STATE_FIX_COMPLETE.md`, `INVALIDUPDATEERROR_FIX.md`);
* a model of the backend Aggregator, built from the specification because the
  aggregator's Python source is not part of the checked-in tree.

Numeric JSON fields carrying fractional values (dashboard metrics) are
modelled as rationals; JSON fields that may be absent or `null` are modelled
as `Option`.
-/

/-- Severity levels of a ModelX event (`'low' | 'medium' | 'high' | 'critical'`
in `use-modelx-data.ts`). -/
inductive Severity
  | low
  | medium
  | high
  | critical
deriving DecidableEq

/-- Impact type of a ModelX event (`'risk' | 'opportunity'`). -/
inductive ImpactType
  | risk
  | opportunity
deriving DecidableEq

/-- System status (`'initializing' | 'operational' | 'error'`). -/
inductive Status
  | initializing
  | operational
  | error
deriving DecidableEq

/-- `ModelXEvent` from `use-modelx-data.ts`: one ranked, deduplicated event of
the feed.  `confidence` is a score in `[0,1]`, modelled as a rational. -/
structure ModelXEvent where
  event_id : String
  domain : String
  severity : Severity
  impact_type : ImpactType
  summary : String
  confidence : ℚ
  timestamp : String
deriving DecidableEq

/-- `RiskDashboard` from `use-modelx-data.ts`. -/
structure RiskDashboard where
  logistics_friction : ℚ
  compliance_volatility : ℚ
  market_instability : ℚ
  opportunity_index : ℚ
  avg_confidence : ℚ
  high_priority_count : ℚ
  total_events : ℚ
  last_updated : String
deriving DecidableEq

/-- `ModelXState` from the FIXED `use-modelx-data.ts`: the client-held view
(`ClientView` of the specification).  `first_run_complete` is the
`first_cycle_complete` flag. -/
structure ModelXState where
  final_ranked_feed : List ModelXEvent
  risk_dashboard_snapshot : RiskDashboard
  run_count : Nat
  status : Status
  first_run_complete : Bool
  last_update : Option String
deriving DecidableEq

/-- `DEFAULT_DASHBOARD` from the FIXED `use-modelx-data.ts`; `last_updated`
is `new Date().toISOString()` at hook creation, passed in as `now`. -/
def DEFAULT_DASHBOARD (now : String) : RiskDashboard :=
  { logistics_friction := 0
    compliance_volatility := 0
    market_instability := 0
    opportunity_index := 0
    avg_confidence := 0
    high_priority_count := 0
    total_events := 0
    last_updated := now }

/-- The initial `useState` value of the FIXED `useModelXData` hook: empty
feed, default dashboard, run count 0, `initializing`, flag false. -/
def initialState (now : String) : ModelXState :=
  { final_ranked_feed := []
    risk_dashboard_snapshot := DEFAULT_DASHBOARD now
    run_count := 0
    status := Status.initializing
    first_run_complete := false
    last_update := none }

/-- A parsed incoming WebSocket data payload (a possibly-partial snapshot).
Every field may be absent (`undefined`/`null` in the JSON), hence `Option`.
An absent or empty `last_update` string is JS-falsy. -/
structure IncomingData where
  final_ranked_feed : Option (List ModelXEvent)
  risk_dashboard_snapshot : Option RiskDashboard
  run_count : Option Nat
  status : Option Status
  first_run_complete : Option Bool
  last_update : Option String
deriving DecidableEq

/-- The all-absent incoming payload, convenient for building partial
snapshots by field update. -/
def emptyData : IncomingData :=
  { final_ranked_feed := none
    risk_dashboard_snapshot := none
    run_count := none
    status := none
    first_run_complete := none
    last_update := none }

/-- The `setState(prev => ...)` merge of the FIXED `useModelXData` WebSocket
`onmessage` handler.  Field by field:
* `newFeed`: incoming feed only if present and non-empty, else held feed;
* `newDashboard`: `data.risk_dashboard_snapshot || prev...` (any present
  dashboard object is JS-truthy);
* `newStatus`: `error` if incoming says `error`, else `operational` if
  incoming says `operational` or the merged feed is non-empty, else held;
* `first_run_complete`: held flag `||` incoming flag `|| newFeed.length > 0`;
* `run_count`: `data.run_count ?? prev.run_count` (nullish coalescing);
* `last_update`: `data.last_update || new Date().toISOString()`, the current
  time being passed in as `now`.
The handler's local consts are embedded as the four `new*` functions below,
and `mergeState` is the returned object. -/
def newFeed (prev : ModelXState) (data : IncomingData) : List ModelXEvent :=
  match data.final_ranked_feed with
  | some f => if f.length > 0 then f else prev.final_ranked_feed
  | none => prev.final_ranked_feed

/-- The handler's `newDashboard` const:
`data.risk_dashboard_snapshot || prev.risk_dashboard_snapshot`. -/
def newDashboard (prev : ModelXState) (data : IncomingData) : RiskDashboard :=
  match data.risk_dashboard_snapshot with
  | some d => d
  | none => prev.risk_dashboard_snapshot

/-- The handler's `newStatus` const. -/
def newStatus (prev : ModelXState) (data : IncomingData) : Status :=
  if data.status = some Status.error then Status.error
  else if data.status = some Status.operational ∨
      (newFeed prev data).length > 0 then Status.operational
  else prev.status

/-- The handler's `newFirstRunComplete` const. -/
def newFirstRunComplete (prev : ModelXState) (data : IncomingData) : Bool :=
  prev.first_run_complete || data.first_run_complete.getD false ||
    decide ((newFeed prev data).length > 0)

def mergeState (prev : ModelXState) (data : IncomingData) (now : String) :
    ModelXState :=
  { final_ranked_feed := newFeed prev data
    risk_dashboard_snapshot := newDashboard prev data
    run_count := data.run_count.getD prev.run_count
    status := newStatus prev data
    first_run_complete := newFirstRunComplete prev data
    last_update :=
      match data.last_update with
      | some s => if s = "" then some now else some s
      | none => some now }

/-- Control messages of the push channel: a `{type: "ping"}` control frame or
a data payload. -/
inductive WsMessage
  | ping
  | snapshot (d : IncomingData)

/-- The client's only outgoing control reply: `{type: "pong"}`. -/
inductive WsReply
  | pong
deriving DecidableEq

/-- The whole FIXED `onmessage` handler on an open socket: a `ping` frame is
answered with `pong` and the handler returns before touching the state; any
other payload is merged by `mergeState` with no reply. -/
def onMessage (prev : ModelXState) (msg : WsMessage) (now : String) :
    ModelXState × Option WsReply :=
  match msg with
  | WsMessage.ping => (prev, some WsReply.pong)
  | WsMessage.snapshot d => (mergeState prev d now, none)

/-- Processing a sequence of incoming data payloads, each carrying the wall
clock `now` at which it arrives. -/
def processMsgs (s : ModelXState) (msgs : List (IncomingData × String)) :
    ModelXState :=
  msgs.foldl (fun st p => mergeState st p.1 p.2) s

/-- The `/api/feeds` response body used by `fetchData` and
`fetchInitialData`: an object whose `events` field may be absent. -/
structure FeedResponse where
  events : Option (List ModelXEvent)
deriving DecidableEq

/-- The `setState(prev => ...)` update of the FIXED hook's REST fallback
`fetchData`, applied to the two fetched JSON bodies:
* dashboard: `dashboard || prev.risk_dashboard_snapshot`;
* feed: `(feed.events && feed.events.length > 0) ? feed.events : prev...`;
* status: `operational` exactly when the fetched events are non-empty;
* `first_run_complete`: `prev... || (feed.events && feed.events.length > 0)`. -/
def fetchDataUpdate (prev : ModelXState) (dashboard : Option RiskDashboard)
    (feed : FeedResponse) : ModelXState :=
  let hasEvents :=
    match feed.events with
    | some es => decide (es.length > 0)
    | none => false
  { prev with
    risk_dashboard_snapshot := dashboard.getD prev.risk_dashboard_snapshot
    final_ranked_feed :=
      match feed.events with
      | some es => if es.length > 0 then es else prev.final_ranked_feed
      | none => prev.final_ranked_feed
    status := if hasEvents then Status.operational else prev.status
    first_run_complete := prev.first_run_complete || hasEvents }

/-- The `setState(prev => ...)` update run by the FIXED hook's safety
`loadingTimeoutRef` handler after `MAX_LOADING_TIME`: if the flag is not yet
set, force `operational` and set it; otherwise leave the state untouched. -/
def loadingTimeoutUpdate (prev : ModelXState) : ModelXState :=
  if prev.first_run_complete then prev
  else { prev with status := Status.operational, first_run_complete := true }

/-- The `setState(prev => ...)` update of the FIXED hook's
`fetchInitialData` (guarded by `feedData.events && feedData.events.length > 0`;
with no or empty events the state is not touched). -/
def fetchInitialDataUpdate (prev : ModelXState)
    (feed : FeedResponse) : ModelXState :=
  match feed.events with
  | some es =>
      if es.length > 0 then
        { prev with
          final_ranked_feed := es
          status := Status.operational
          first_run_complete := true }
      else prev
  | none => prev

/-!
## Server-side fan-in: the `domain_insights` reducer and the branch wrapper

`reduce_domain_insights` is the custom LangGraph reducer added to all five
sub-graph state classes (`STATE_FIX_COMPLETE.md`): the incoming value is
either the string sentinel `"RESET"` (clear the field), a list (concatenate),
or anything else (keep the current value); a non-list existing value is
treated as the empty list.  The dictionaries it stores are opaque to the
reducer, so it is embedded generically over the element type `α`. -/

/-- A value of the dynamically-typed `domain_insights` channel: a list of
insight records or a string (only `"RESET"` is meaningful). -/
inductive DIValue (α : Type)
  | list (l : List α)
  | str (s : String)

/-- `reduce_domain_insights(existing, new)` from `STATE_FIX_COMPLETE.md`:
```
if isinstance(new, str) and new == "RESET": return []
current = existing if isinstance(existing, list) else []
if isinstance(new, list): return current + new
return current
``` -/
def reduce_domain_insights {α : Type} (existing : DIValue α)
    (incoming : DIValue α) : List α :=
  match incoming with
  | DIValue.str s =>
      if s = "RESET" then []
      else
        match existing with
        | DIValue.list cur => cur
        | DIValue.str _ => []
  | DIValue.list l =>
      (match existing with
       | DIValue.list cur => cur
       | DIValue.str _ => []) ++ l

/-- One `apply` step on the held list value of the `domain_insights` field. -/
def applyDI {α : Type} (s : List α) (incoming : DIValue α) : List α :=
  reduce_domain_insights (DIValue.list s) incoming

/-- Whether an incoming value is the reserved reset sentinel. -/
def isRESET {α : Type} : DIValue α → Bool
  | DIValue.str s => s = "RESET"
  | DIValue.list _ => false

/-- The insight dictionary built by `wrap_subagent_with_adapter`
(`INVALIDUPDATEERROR_FIX.md`): on success it has keys `source`, `timestamp`,
`agent_output`, `status`; on failure keys `source`, `error`, `status`.  The
sub-agent's raw output is opaque, hence the parameter `ρ`. -/
structure Insight (ρ : Type) where
  source : String
  timestamp : Option String
  agent_output : Option ρ
  error : Option String
  status : String

/-- The partial update a wrapped branch returns to the combined graph:
`{"domain_insights": [insight]}`. -/
structure PartialUpdate (ρ : Type) where
  domain_insights : List (Insight ρ)

/-- `wrap_subagent_with_adapter(subagent_graph, agent_name)` from
`INVALIDUPDATEERROR_FIX.md`.  `invoke` is `subagent_graph.invoke`, with a
raised exception modelled as `Except.error` carrying `str(e)`; `now` is
`datetime.utcnow().isoformat()`.  The wrapped branch is total: both the
success path and the exception path return a `PartialUpdate` whose
`domain_insights` is a one-element list. -/
def wrap_subagent_with_adapter {σ ρ : Type} (invoke : σ → Except String ρ)
    (agent_name : String) (now : String) (state : σ) : PartialUpdate ρ :=
  match invoke state with
  | Except.ok result =>
      { domain_insights :=
          [{ source := agent_name
             timestamp := some now
             agent_output := some result
             error := none
             status := "completed" }] }
  | Except.error e =>
      { domain_insights :=
          [{ source := agent_name
             timestamp := none
             agent_output := none
             error := some e
             status := "failed" }] }

/-!
## Reconnect backoff (the "COMPLETE" hook version)

`maxReconnectAttempts = 10`; on every close (or connect exception) the
attempt counter is incremented and a reconnect is scheduled after
`Math.min(1000 * Math.pow(2, attempts), 30000)` ms; `connect()` refuses to
run once the counter has reached the maximum, so nothing further is ever
scheduled.  The REST fallback polling effect runs exactly when the socket is
not connected (`if (isConnected) return`). -/

/-- `maxReconnectAttempts` of the COMPLETE `useModelXData`. -/
def maxReconnectAttempts : Nat := 10

/-- The `ws.onclose` handler's scheduling step: increment the attempt counter
and compute the delay of the scheduled reconnect,
`Math.min(1000 * Math.pow(2, reconnectAttemptsRef.current), 30000)` with the
post-increment counter.  Returns (new counter, scheduled delay in ms). -/
def onCloseSchedule (attempts : Nat) : Nat × Nat :=
  (attempts + 1, min (1000 * 2 ^ (attempts + 1)) 30000)

/-- The guard at the top of `connect()`: a connection (and hence any further
`onclose` scheduling) happens only while the attempt counter is below
`maxReconnectAttempts`. -/
def connectAllowed (attempts : Nat) : Bool :=
  attempts < maxReconnectAttempts

/-- The guard of the REST fallback polling effect: polling is active exactly
when the WebSocket is not connected. -/
def pollingActive (isConnected : Bool) : Bool :=
  !isConnected

/-!
## The Aggregator

Modelled from the spec: the backend FeedAggregator's Python source is not in
the checked-in tree (only its callers and fix notes are), so `aggregate` is
built from §4.4 of the specification: deduplication groups insights with the
same normalized summary text and keeps the highest-confidence representative;
ranking orders by severity (critical > high > medium > low), then confidence
descending, then recency descending.  To make `aggregate` a pure function of
the input multiset, arrival order is first erased by sorting the input along
a total linear order on insights (`canonRel`), and all remaining choices
(tie-breaks in representative selection and in ranking) are functions of that
canonical form only. -/

/-- Numeric severity rank: critical > high > medium > low. -/
def severityRank : Severity → Nat
  | Severity.critical => 3
  | Severity.high => 2
  | Severity.medium => 1
  | Severity.low => 0

/-- Modelled from the spec: an insight as the Aggregator consumes it, carrying
the fields deduplication and ranking read (identifier, domain tag, summary
text, confidence in `[0,1]` as a rational, timestamp as an abstract instant).
Fields the Aggregator never reads are omitted. -/
structure AggInsight where
  id : Nat
  domain : String
  severity : Severity
  summary : String
  confidence : ℚ
  timestamp : Nat
deriving DecidableEq

/-- ASCII case folding of one character. -/
def lowerChar (c : Char) : Char :=
  if 65 ≤ c.toNat ∧ c.toNat ≤ 90 then Char.ofNat (c.toNat + 32) else c

/-- Modelled from the spec: summary normalization for duplicate detection
("same normalized text"), modelled as case folding of the character data. -/
def normalizeSummary (s : String) : List Char :=
  s.data.map lowerChar

/-- The deduplication grouping key of an insight. -/
def keyOf (i : AggInsight) : List Char :=
  normalizeSummary i.summary

/-- A key made of every field of an insight, mapped into a lexicographic
product of linear orders; injective, so `canonRel` is a linear order.  The
text fields are compared through their character data. -/
def canonKey (i : AggInsight) :
    List Char ×ₗ List Char ×ₗ ℕ ×ₗ ℕ ×ₗ ℚ ×ₗ ℕ :=
  toLex (i.domain.data, toLex (i.summary.data, toLex (i.id,
    toLex (severityRank i.severity, toLex (i.confidence, i.timestamp)))))

/-- The canonical (arrival-order-erasing) total order on insights. -/
def canonRel (a b : AggInsight) : Prop :=
  canonKey a ≤ canonKey b

instance : DecidableRel canonRel :=
  fun a b => inferInstanceAs (Decidable (canonKey a ≤ canonKey b))

/-- The ranking key: severity rank, then confidence, then timestamp, each
compared descending. -/
def rankTriple (i : AggInsight) : ℕ ×ₗ ℚ ×ₗ ℕ :=
  toLex (severityRank i.severity, toLex (i.confidence, i.timestamp))

/-- The output ordering of §4.4: severity descending, then confidence
descending, then recency descending, totalized by the canonical order. -/
def rankRel (a b : AggInsight) : Prop :=
  rankTriple b < rankTriple a ∨
    (rankTriple b = rankTriple a ∧ canonKey a ≤ canonKey b)

instance : DecidableRel rankRel :=
  fun a b =>
    inferInstanceAs (Decidable (rankTriple b < rankTriple a ∨
      (rankTriple b = rankTriple a ∧ canonKey a ≤ canonKey b)))

/-- Representative selection within one duplicate group: keep the insight
with the higher confidence (on a tie, the earlier one in canonical order). -/
def selBetter (cur x : AggInsight) : AggInsight :=
  if cur.confidence < x.confidence then x else cur

/-- The representative of the duplicate group with key `k` inside the
canonical list `c`: the highest-confidence insight whose summary normalizes
to `k` (none if the group is empty). -/
def repFor (c : List AggInsight) (k : List Char) : Option AggInsight :=
  match c.filter (fun i => keyOf i = k) with
  | [] => none
  | x :: xs => some (xs.foldl selBetter x)

/-- One representative per duplicate group of the canonical list `c`. -/
def groupReps (c : List AggInsight) : List AggInsight :=
  ((c.map keyOf).dedup).filterMap (repFor c)

/-- Modelled from the spec: `aggregate(insights)` — erase arrival order,
collapse each near-duplicate group to its highest-confidence representative,
and rank the survivors by severity, confidence and recency. -/
def aggregate (l : List AggInsight) : List AggInsight :=
  List.insertionSort rankRel (groupReps (List.insertionSort canonRel l))

/-!
## Sample data for concrete runs
-/

/-- A sample event (`e1` of the specification's reconciler test). -/
def sampleE1 : ModelXEvent :=
  { event_id := "e1"
    domain := "social"
    severity := Severity.low
    impact_type := ImpactType.risk
    summary := "port congestion building"
    confidence := 0
    timestamp := "2025-01-01T00:00:01Z" }

/-- A second sample event (`e2`). -/
def sampleE2 : ModelXEvent :=
  { event_id := "e2"
    domain := "political"
    severity := Severity.high
    impact_type := ImpactType.opportunity
    summary := "tariff relief announced"
    confidence := 1
    timestamp := "2025-01-01T00:00:02Z" }

/-- A partial snapshot carrying only a feed, as in the specification's
reconciler test sequence. -/
def feedMsg (f : List ModelXEvent) : IncomingData :=
  { emptyData with final_ranked_feed := some f }

/-- A held view whose first cycle has completed and which carries non-default
`run_count` and dashboard values. -/
def sampleHeldView : ModelXState :=
  { final_ranked_feed := [sampleE1]
    risk_dashboard_snapshot :=
      { DEFAULT_DASHBOARD "t0" with total_events := 7, high_priority_count := 2 }
    run_count := 5
    status := Status.operational
    first_run_complete := true
    last_update := some "t5" }

/-- An incoming message carrying the default run count 0 and the all-default
dashboard, both present. -/
def zeroRunCountMsg : IncomingData :=
  { emptyData with
    run_count := some 0
    risk_dashboard_snapshot := some (DEFAULT_DASHBOARD "t0") }

/-- Aggregator sample: the lower-confidence member of a near-duplicate pair
(summaries differing only in case). -/
def dupLo : AggInsight :=
  { id := 1, domain := "social", severity := Severity.medium,
    summary := "Port Strike Looms", confidence := 0, timestamp := 10 }

/-- Aggregator sample: the higher-confidence member of the pair. -/
def dupHi : AggInsight :=
  { id := 2, domain := "social", severity := Severity.medium,
    summary := "port strike looms", confidence := 1, timestamp := 11 }

/-- Aggregator sample: a `low`-severity insight. -/
def sevLow : AggInsight :=
  { id := 3, domain := "weather", severity := Severity.low,
    summary := "light rain expected", confidence := 1, timestamp := 5 }

/-- Aggregator sample: a `critical`-severity insight. -/
def sevCrit : AggInsight :=
  { id := 4, domain := "political", severity := Severity.critical,
    summary := "state of emergency declared", confidence := 1, timestamp := 6 }

/-- Aggregator sample: a `high`-severity insight. -/
def sevHigh : AggInsight :=
  { id := 5, domain := "economical", severity := Severity.high,
    summary := "currency slide accelerates", confidence := 1, timestamp := 7 }

/-!
## Order-theoretic facts about the canonical insight order
-/

/-- `severityRank` tells the four severities apart. -/
lemma severityRank_injective : Function.Injective severityRank := by
  intro a b h
  cases a <;> cases b <;> simp_all [severityRank]

/-- `canonKey` packs every field of an insight, injectively. -/
lemma canonKey_injective : Function.Injective canonKey := by
  intro a b h
  simp only [canonKey, toLex_inj, Prod.mk.injEq] at h
  obtain ⟨h1, h2, h3, h4, h5, h6⟩ := h
  cases a
  cases b
  simp only at h1 h2 h3 h4 h5 h6
  simp only [AggInsight.mk.injEq]
  exact ⟨h3, String.ext h1, severityRank_injective h4, String.ext h2, h5, h6⟩

instance : IsTotal AggInsight canonRel :=
  ⟨fun a b => le_total (canonKey a) (canonKey b)⟩

instance : IsTrans AggInsight canonRel :=
  ⟨fun _ _ _ h1 h2 => le_trans h1 h2⟩

instance : IsAntisymm AggInsight canonRel :=
  ⟨fun _ _ h1 h2 => canonKey_injective (le_antisymm h1 h2)⟩

/-- Sorting along the canonical linear order erases arrival order: lists that
are permutations of each other canonicalize to the same list. -/
lemma insertionSort_canonRel_eq_of_perm {l l' : List AggInsight}
    (h : l.Perm l') :
    List.insertionSort canonRel l = List.insertionSort canonRel l' :=
  List.eq_of_perm_of_sorted
    ((List.perm_insertionSort canonRel l).trans
      (h.trans (List.perm_insertionSort canonRel l').symm))
    (List.sorted_insertionSort canonRel l)
    (List.sorted_insertionSort canonRel l')

/-!
## Step lemmas about the client-side merge
-/

/-- An incoming flag already set keeps the merged flag set. -/
lemma frc_mono {prev : ModelXState} {data : IncomingData}
    (h : prev.first_run_complete = true) :
    newFirstRunComplete prev data = true := by
  simp [newFirstRunComplete, h]

/-- A non-empty merged feed forces the merged flag. -/
lemma frc_true_of_feed {prev : ModelXState} {data : IncomingData}
    (h : newFeed prev data ≠ []) :
    newFirstRunComplete prev data = true := by
  have hl : (newFeed prev data).length > 0 := List.length_pos.mpr h
  simp [newFirstRunComplete, hl]

/-- With the held flag unset, an incoming message carrying no (true) flag and
producing an empty merged feed leaves the flag unset. -/
lemma frc_false {prev : ModelXState} {data : IncomingData}
    (h1 : prev.first_run_complete = false)
    (h2 : data.first_run_complete.getD false = false)
    (h3 : newFeed prev data = []) :
    newFirstRunComplete prev data = false := by
  simp [newFirstRunComplete, h1, h2, h3]

/-- A non-empty held feed never regresses to empty under a merge. -/
lemma newFeed_ne_nil_of_prev {prev : ModelXState} {data : IncomingData}
    (h : prev.final_ranked_feed ≠ []) : newFeed prev data ≠ [] := by
  unfold newFeed
  cases data.final_ranked_feed with
  | none => exact h
  | some f =>
      by_cases hl : f.length > 0
      · simpa [hl] using List.ne_nil_of_length_pos hl
      · simpa [hl] using h

lemma processMsgs_cons (s : ModelXState) (p : IncomingData × String)
    (ps : List (IncomingData × String)) :
    processMsgs s (p :: ps) = processMsgs (mergeState s p.1 p.2) ps := rfl

/-- The flag, once set, survives any message sequence. -/
lemma processMsgs_frc_mono :
    ∀ (msgs : List (IncomingData × String)) (s : ModelXState),
      s.first_run_complete = true →
      (processMsgs s msgs).first_run_complete = true
  | [], _, hs => hs
  | p :: ps, s, hs => by
      rw [processMsgs_cons]
      exact processMsgs_frc_mono ps (mergeState s p.1 p.2) (frc_mono hs)

/-- A non-empty held feed survives any message sequence. -/
lemma processMsgs_feed_persists :
    ∀ (msgs : List (IncomingData × String)) (s : ModelXState),
      s.final_ranked_feed ≠ [] →
      (processMsgs s msgs).final_ranked_feed ≠ []
  | [], _, hs => hs
  | p :: ps, s, hs => by
      rw [processMsgs_cons]
      exact processMsgs_feed_persists ps (mergeState s p.1 p.2)
        (newFeed_ne_nil_of_prev hs)

/-- The invariant "non-empty feed implies flag set" is preserved by any
message sequence. -/
lemma processMsgs_invariant :
    ∀ (msgs : List (IncomingData × String)) (s : ModelXState),
      (s.final_ranked_feed ≠ [] → s.first_run_complete = true) →
      ((processMsgs s msgs).final_ranked_feed ≠ [] →
        (processMsgs s msgs).first_run_complete = true)
  | [], _, hs => hs
  | p :: ps, s, _ => by
      rw [processMsgs_cons]
      exact processMsgs_invariant ps (mergeState s p.1 p.2)
        (fun hf => frc_true_of_feed hf)

/-- While no processed message carried a true flag and the feed never turned
non-empty, the flag stays unset. -/
lemma processMsgs_frc_false :
    ∀ (msgs : List (IncomingData × String)) (s : ModelXState),
      (∀ p ∈ msgs, p.1.first_run_complete.getD false = false) →
      s.first_run_complete = false →
      (processMsgs s msgs).final_ranked_feed = [] →
      (processMsgs s msgs).first_run_complete = false
  | [], _, _, hs, _ => hs
  | p :: ps, s, hall, hs, hfe => by
      rw [processMsgs_cons] at hfe ⊢
      have hm : (mergeState s p.1 p.2).final_ranked_feed = [] := by
        by_contra hne
        exact processMsgs_feed_persists ps (mergeState s p.1 p.2) hne hfe
      exact processMsgs_frc_false ps (mergeState s p.1 p.2)
        (fun q hq => hall q (List.mem_cons_of_mem p hq))
        (frc_false hs (hall p (List.mem_cons_self p ps)) hm) hfe

/-!
## Claims
-/

/-- C1: the reconciler's merge replaces the held event feed only if the
incoming `final_ranked_feed` is non-empty (a missing or empty incoming feed
retains the held one); in particular, processing the sequence
`[{feed:[e1]}, {feed:[]}, {feed:[e1,e2]}]` from the initial empty view leaves
the final held feed equal to `[e1, e2]`. -/
theorem mergeState_feed_nonregression :
    (∀ (prev : ModelXState) (data : IncomingData) (now : String)
        (f : List ModelXEvent),
        data.final_ranked_feed = some f → f ≠ [] →
          (mergeState prev data now).final_ranked_feed = f) ∧
    (∀ (prev : ModelXState) (data : IncomingData) (now : String),
        data.final_ranked_feed = none ∨ data.final_ranked_feed = some [] →
          (mergeState prev data now).final_ranked_feed =
            prev.final_ranked_feed) ∧
    (∀ (e1 e2 : ModelXEvent) (now0 n1 n2 n3 : String),
        (processMsgs (initialState now0)
            [(feedMsg [e1], n1), (feedMsg [], n2),
             (feedMsg [e1, e2], n3)]).final_ranked_feed = [e1, e2]) := by
  refine ⟨?_, ?_, ?_⟩
  · intro prev data now f hf hne
    show newFeed prev data = f
    unfold newFeed
    rw [hf]
    simp [List.length_pos.mpr hne]
  · intro prev data now h
    show newFeed prev data = prev.final_ranked_feed
    unfold newFeed
    rcases h with h | h <;> simp [h]
  · intro e1 e2 now0 n1 n2 n3
    simp [processMsgs, mergeState, newFeed, feedMsg, emptyData, initialState]

/-- Witness for C1: the first conjunct applied to a concrete non-empty
incoming feed. -/
theorem mergeState_feed_nonregression_witness :
    (feedMsg [sampleE1]).final_ranked_feed = some [sampleE1] ∧
      [sampleE1] ≠ [] ∧
      (mergeState (initialState "t0") (feedMsg [sampleE1]) "t1").final_ranked_feed
        = [sampleE1] :=
  ⟨rfl, by decide,
    mergeState_feed_nonregression.1 (initialState "t0") (feedMsg [sampleE1])
      "t1" [sampleE1] rfl (by decide)⟩

/-- C2 counterexample: the `reduce_domain_insights` merge on list updates is
append-concatenation, which is not commutative as ordered lists — applying
`[1]` then `[2]` to the empty field differs from applying `[2]` then `[1]`. -/
theorem reduce_domain_insights_not_commutative :
    applyDI (applyDI ([] : List Nat) (DIValue.list [1])) (DIValue.list [2]) ≠
      applyDI (applyDI ([] : List Nat) (DIValue.list [2])) (DIValue.list [1]) := by
  decide

/-- C2 (amended): for non-RESET updates the merge is associative — applying
list updates `a` then `b` equals applying the single update `a ++ b` — and
order-independent up to permutation: the two application orders yield the
same multiset of insights, though not the same ordered list. -/
theorem reduce_domain_insights_assoc_perm :
    (∀ (α : Type) (s a b : List α),
        applyDI (applyDI s (DIValue.list a)) (DIValue.list b) =
          applyDI s (DIValue.list (a ++ b))) ∧
    (∀ (α : Type) (s : List α) (u v : DIValue α),
        isRESET u = false → isRESET v = false →
          (applyDI (applyDI s u) v).Perm (applyDI (applyDI s v) u)) := by
  constructor
  · intro α s a b
    simp [applyDI, reduce_domain_insights]
  · intro α s u v hu hv
    cases u with
    | str su =>
        simp only [isRESET, decide_eq_false_iff_not] at hu
        cases v with
        | str sv =>
            simp only [isRESET, decide_eq_false_iff_not] at hv
            simp [applyDI, reduce_domain_insights, hu, hv]
        | list b =>
            simp [applyDI, reduce_domain_insights, hu]
    | list a =>
        cases v with
        | str sv =>
            simp only [isRESET, decide_eq_false_iff_not] at hv
            simp [applyDI, reduce_domain_insights, hv]
        | list b =>
            show ((s ++ a) ++ b).Perm ((s ++ b) ++ a)
            rw [List.append_assoc, List.append_assoc]
            exact List.Perm.append_left s List.perm_append_comm

/-- Witness for C2's amended theorem: the two application orders of `[1]` and
`[2]` on the empty field are permutations of each other. -/
theorem reduce_domain_insights_assoc_perm_witness :
    isRESET (DIValue.list [1] : DIValue Nat) = false ∧
      (applyDI (applyDI ([] : List Nat) (DIValue.list [1]))
          (DIValue.list [2])).Perm
        (applyDI (applyDI ([] : List Nat) (DIValue.list [2]))
          (DIValue.list [1])) :=
  ⟨rfl, reduce_domain_insights_assoc_perm.2 Nat []
    (DIValue.list [1]) (DIValue.list [2]) rfl rfl⟩

/-- C3: an error raised during branch execution is converted by
`wrap_subagent_with_adapter` into a partial update holding a single Insight
with status `failed` carrying the error description (the wrapped branch is a
total function, so the error never propagates), and merging that update via
the `domain_insights` reducer leaves other branches' insights intact. -/
theorem wrap_subagent_contains_failure :
    ∀ (σ ρ : Type) (invoke : σ → Except String ρ) (agent now : String)
      (st : σ) (e : String),
      invoke st = Except.error e →
        (wrap_subagent_with_adapter invoke agent now st).domain_insights =
          [{ source := agent, timestamp := none, agent_output := none,
             error := some e, status := "failed" }] ∧
        ∀ others : List (Insight ρ),
          applyDI others
              (DIValue.list
                (wrap_subagent_with_adapter invoke agent now st).domain_insights) =
            others ++
              [{ source := agent, timestamp := none, agent_output := none,
                 error := some e, status := "failed" }] := by
  intro σ ρ invoke agent now st e h
  have hw : (wrap_subagent_with_adapter invoke agent now st).domain_insights =
      [{ source := agent, timestamp := none, agent_output := none,
         error := some e, status := "failed" }] := by
    simp [wrap_subagent_with_adapter, h]
  refine ⟨hw, fun others => ?_⟩
  rw [hw]
  simp [applyDI, reduce_domain_insights]

/-- Witness for C3: a branch whose invocation raises `"boom"` produces the
single failed Insight. -/
theorem wrap_subagent_contains_failure_witness :
    ((fun _ : Unit => (Except.error "boom" : Except String Unit)) () =
        Except.error "boom") ∧
      (wrap_subagent_with_adapter
          (fun _ : Unit => (Except.error "boom" : Except String Unit))
          "SocialAgent" "t0" ()).domain_insights =
        [{ source := "SocialAgent", timestamp := none, agent_output := none,
           error := some "boom", status := "failed" }] :=
  ⟨rfl, (wrap_subagent_contains_failure Unit Unit
    (fun _ => Except.error "boom") "SocialAgent" "t0" () "boom" rfl).1⟩

/-- C4: an incoming `"RESET"` clears the field to the empty list, and folding
the merge over `"RESET"` followed by any updates equals folding the same
updates from the empty list — no pre-reset element is ever observed after a
reset. -/
theorem reduce_domain_insights_reset :
    (∀ (α : Type) (s : List α), applyDI s (DIValue.str "RESET") = []) ∧
    (∀ (α : Type) (s : List α) (us : List (DIValue α)),
        us.foldl applyDI (applyDI s (DIValue.str "RESET")) =
          us.foldl applyDI ([] : List α)) := by
  constructor
  · intro α s
    simp [applyDI, reduce_domain_insights]
  · intro α s us
    have h : applyDI s (DIValue.str "RESET") = ([] : List α) := by
      simp [applyDI, reduce_domain_insights]
    rw [h]

/-- C5: once `first_run_complete` is true, every reconciler operation — the
WebSocket message merge, the REST fallback fetch, the loading-timeout
handler, and the initial REST fetch — leaves it true. -/
theorem first_run_complete_never_unset :
    ∀ (prev : ModelXState), prev.first_run_complete = true →
      (∀ (data : IncomingData) (now : String),
          (mergeState prev data now).first_run_complete = true) ∧
      (∀ (dash : Option RiskDashboard) (feed : FeedResponse),
          (fetchDataUpdate prev dash feed).first_run_complete = true) ∧
      (loadingTimeoutUpdate prev).first_run_complete = true ∧
      (∀ feed : FeedResponse,
          (fetchInitialDataUpdate prev feed).first_run_complete = true) := by
  intro prev h
  refine ⟨fun data now => frc_mono h, fun dash feed => ?_, ?_, fun feed => ?_⟩
  · simp [fetchDataUpdate, h]
  · simp [loadingTimeoutUpdate, h]
  · unfold fetchInitialDataUpdate
    cases feed.events with
    | none => exact h
    | some es => by_cases hl : es.length > 0 <;> simp [hl, h]

/-- Witness for C5: the loading-timeout handler applied to a view whose flag
is already set. -/
theorem first_run_complete_never_unset_witness :
    sampleHeldView.first_run_complete = true ∧
      (loadingTimeoutUpdate sampleHeldView).first_run_complete = true :=
  ⟨rfl, (first_run_complete_never_unset sampleHeldView rfl).2.2.1⟩

/-- C6 counterexample: from the initial view, a single incoming message
carrying `first_run_complete: true` and no feed sets the flag even though no
merge has yielded a non-empty event list, refuting "is false before any
merge has yielded a non-empty event list". -/
theorem first_run_complete_without_nonempty_merge :
    (processMsgs (initialState "t0")
        [({ emptyData with first_run_complete := some true }, "t1")]).final_ranked_feed
      = [] ∧
      (processMsgs (initialState "t0")
          [({ emptyData with first_run_complete := some true }, "t1")]).first_run_complete
        = true := by
  exact ⟨rfl, rfl⟩

/-- C6 (amended): the flag is true from the first message whose merge
produces a non-empty held feed onward; and before any merge has yielded a
non-empty feed it is false, provided no processed message itself carried a
true `first_run_complete` field (such a message sets the flag without any
non-empty merge). -/
theorem first_run_complete_tracks_nonempty_merge :
    ∀ (now0 : String) (pre suf : List (IncomingData × String)),
      ((processMsgs (initialState now0) pre).final_ranked_feed ≠ [] →
        (processMsgs (processMsgs (initialState now0) pre)
            suf).first_run_complete = true) ∧
      ((∀ p ∈ pre, p.1.first_run_complete.getD false = false) →
        (processMsgs (initialState now0) pre).final_ranked_feed = [] →
        (processMsgs (initialState now0) pre).first_run_complete = false) := by
  intro now0 pre suf
  constructor
  · intro hne
    exact processMsgs_frc_mono suf (processMsgs (initialState now0) pre)
      (processMsgs_invariant pre (initialState now0)
        (fun hf => (hf rfl).elim) hne)
  · intro hall hfe
    exact processMsgs_frc_false pre (initialState now0) hall rfl hfe

/-- Witness for C6's amended theorem: after a first message whose merge
produces the non-empty feed `[e1]`, a later empty update leaves the flag
true. -/
theorem first_run_complete_tracks_nonempty_merge_witness :
    (processMsgs (initialState "t0")
        [(feedMsg [sampleE1], "t1")]).final_ranked_feed ≠ [] ∧
      (processMsgs (processMsgs (initialState "t0")
          [(feedMsg [sampleE1], "t1")])
        [(feedMsg [], "t2")]).first_run_complete = true :=
  ⟨by decide,
    (first_run_complete_tracks_nonempty_merge "t0"
      [(feedMsg [sampleE1], "t1")] [(feedMsg [], "t2")]).1 (by decide)⟩

/-- C7: a `{type: "ping"}` control message on the open channel is answered
with `{type: "pong"}` and leaves the held ClientView completely unchanged. -/
theorem ping_pong_state_unchanged :
    ∀ (prev : ModelXState) (now : String),
      onMessage prev WsMessage.ping now = (prev, some WsReply.pong) := by
  intro prev now
  rfl

/-- C8: reconnect delays are capped at 30000 ms, non-decreasing in the
attempt number and strictly increasing while below the cap; once the attempt
counter reaches `maxReconnectAttempts` no connection (hence no further
scheduling) happens; and the pull-polling fallback is active whenever the
socket is disconnected. -/
theorem reconnect_backoff_capped :
    (∀ n : Nat, (onCloseSchedule n).2 ≤ 30000) ∧
    (∀ n : Nat, (onCloseSchedule n).2 ≤ (onCloseSchedule (n + 1)).2) ∧
    (∀ n : Nat, (onCloseSchedule n).2 < 30000 →
        (onCloseSchedule n).2 < (onCloseSchedule (n + 1)).2) ∧
    (∀ n : Nat, maxReconnectAttempts ≤ n → connectAllowed n = false) ∧
    pollingActive false = true := by
  have hp : ∀ n : Nat, (2:Nat) ^ (n + 1) < 2 ^ (n + 1 + 1) :=
    fun n => Nat.pow_lt_pow_succ (by norm_num)
  refine ⟨?_, ?_, ?_, ?_, rfl⟩
  · intro n
    simp only [onCloseSchedule]
    omega
  · intro n
    simp only [onCloseSchedule]
    have := hp n
    omega
  · intro n h
    simp only [onCloseSchedule] at h ⊢
    have := hp n
    omega
  · intro n h
    simp only [maxReconnectAttempts] at h
    simp only [connectAllowed, maxReconnectAttempts, decide_eq_false_iff_not]
    omega

/-- Witness for C8: at attempt 0 the delay (2000 ms) is below the cap and
strictly smaller than the next delay (4000 ms); at attempt 10 connecting is
refused. -/
theorem reconnect_backoff_capped_witness :
    ((onCloseSchedule 0).2 < 30000 ∧
        (onCloseSchedule 0).2 < (onCloseSchedule 1).2) ∧
      maxReconnectAttempts ≤ 10 ∧ connectAllowed 10 = false :=
  ⟨⟨by decide, reconnect_backoff_capped.2.2.1 0 (by decide)⟩,
    by decide, reconnect_backoff_capped.2.2.2.1 10 (by decide)⟩

/-- C9: `aggregate` is a pure function of the input multiset — permutations
of the input produce identical output; a near-duplicate pair collapses to
exactly the higher-confidence representative; and severities
`[low, critical, high]` come out ordered `[critical, high, low]`. -/
theorem aggregate_pure_dedup_ranked :
    (∀ (l l' : List AggInsight), l.Perm l' → aggregate l = aggregate l') ∧
    aggregate [dupLo, dupHi] = [dupHi] ∧
    aggregate [sevLow, sevCrit, sevHigh] = [sevCrit, sevHigh, sevLow] := by
  refine ⟨?_, by decide, by decide⟩
  intro l l' h
  unfold aggregate
  rw [insertionSort_canonRel_eq_of_perm h]

/-- Witness for C9: the two arrival orders of the duplicate pair aggregate to
the same output. -/
theorem aggregate_pure_dedup_ranked_witness :
    List.Perm [dupLo, dupHi] [dupHi, dupLo] ∧
      aggregate [dupLo, dupHi] = aggregate [dupHi, dupLo] :=
  ⟨by decide,
    aggregate_pure_dedup_ranked.1 [dupLo, dupHi] [dupHi, dupLo] (by decide)⟩

/-- C10: the non-regression guard covers only the event feed — an incoming
message with `run_count` present (even the default 0) overwrites a larger
held `run_count`, and any present incoming dashboard object replaces the
held one, even the all-default dashboard. -/
theorem mergeState_guard_only_feed :
    (∀ (prev : ModelXState) (data : IncomingData) (now : String) (n : Nat),
        data.run_count = some n → (mergeState prev data now).run_count = n) ∧
    (∀ (prev : ModelXState) (data : IncomingData) (now : String)
        (dash : RiskDashboard),
        data.risk_dashboard_snapshot = some dash →
          (mergeState prev data now).risk_dashboard_snapshot = dash) ∧
    sampleHeldView.run_count = 5 ∧
    (mergeState sampleHeldView zeroRunCountMsg "t6").run_count = 0 ∧
    (mergeState sampleHeldView zeroRunCountMsg "t6").risk_dashboard_snapshot
      = DEFAULT_DASHBOARD "t0" := by
  refine ⟨?_, ?_, rfl, rfl, rfl⟩
  · intro prev data now n h
    show data.run_count.getD prev.run_count = n
    rw [h]
    rfl
  · intro prev data now dash h
    show newDashboard prev data = dash
    unfold newDashboard
    rw [h]

/-- Witness for C10: the universally quantified conjuncts applied to the
concrete held view and incoming zero run count. -/
theorem mergeState_guard_only_feed_witness :
    zeroRunCountMsg.run_count = some 0 ∧
      (mergeState sampleHeldView zeroRunCountMsg "t6").run_count = 0 :=
  ⟨rfl, mergeState_guard_only_feed.1 sampleHeldView zeroRunCountMsg "t6" 0 rfl⟩
